import Mathlib

/-!
Formalisation of `opendlv-device-ps3controller` (src/opendlv-device-ps3controller.cpp).

The axis mapper, input-sampler state updates, publish loop and shutdown path are
embedded over exact rational arithmetic (the C code uses `float`; the rational
model captures the arithmetic the spec describes).  The concurrent system
(sampler thread plus time-triggered publish loop, both protected by one mutex)
is modelled as an interleaving of atomic actions on a shared state.
-/

/-- Raw joystick event, mirroring `struct js_event` (fields `type`, `number`, `value`). -/
structure JsEvent where
  typ : Nat
  number : Nat
  value : Int
deriving DecidableEq, Repr

def MIN_AXES_VALUE : Int := -32768

def MAX_AXES_VALUE : Int := 32767

def JS_EVENT_BUTTON : Nat := 1

def JS_EVENT_AXIS : Nat := 2

def JS_EVENT_INIT : Nat := 128

def EAGAIN : Nat := 11

/-- js.type with the JS_EVENT_INIT bit cleared: `js.type & ~JS_EVENT_INIT`,
computed in 32-bit int arithmetic (the mask is 0xFFFFFF7F). -/
def stripInit (t : Nat) : Nat := Nat.land t 4294967167

/-- Command-line configuration consumed by the mapping code. -/
structure Config where
  isPS4 : Bool
  accMin : ℚ
  accMax : ℚ
  decMin : ℚ
  decMax : ℚ
  steerMin : ℚ
  steerMax : ℚ
deriving DecidableEq, Repr

/-- percent = (js.value - MIN_AXES_VALUE) / (MAX_AXES_VALUE - MIN_AXES_VALUE) * 100
(lines 138 and 164 of the source). -/
def percentOf (v : Int) : ℚ :=
  ((v - MIN_AXES_VALUE : Int) : ℚ) / ((MAX_AXES_VALUE - MIN_AXES_VALUE : Int) : ℚ) * 100

/-- C `roundf`: round to the nearest integer, halves away from zero. -/
def roundAway (x : ℚ) : Int :=
  if x < 0 then -(Int.floor (-x + 1/2)) else Int.floor (x + 1/2)

/-- Quantization in steps of 0.25: `roundf(4.0f*x)/4.0f`. -/
def quantize (x : ℚ) : ℚ := ((roundAway (4 * x) : Int) : ℚ) / 4

/-- Zero snap: `if (x < 0.001f && x > -0.001f) x = 0;`. -/
def zeroSnap (x : ℚ) : ℚ := if x < 1/1000 ∧ -(1/1000) < x then 0 else x

/-- Steering before quantization: `percent/100*(STEERING_MAX-STEERING_MIN)+STEERING_MIN`
followed by `steering *= -1.0f` (lines 151-152). -/
def steeringPreQuant (cfg : Config) (v : Int) : ℚ :=
  (percentOf v / 100 * (cfg.steerMax - cfg.steerMin) + cfg.steerMin) * (-1)

/-- The steering value stored for a steering-axis sample (lines 151-159). -/
def steeringFromRaw (cfg : Config) (v : Int) : ℚ :=
  zeroSnap (quantize (steeringPreQuant cfg v))

/-- Acceleration before quantization (lines 170-177): branch on the sign of the raw value. -/
def accelPreQuant (cfg : Config) (v : Int) : ℚ :=
  if v < 0 then
    (100 - 2 * percentOf v) / 100 * (cfg.accMax - cfg.accMin) + cfg.accMin
  else
    (2 * percentOf v - 100) / 100 * (cfg.decMax - cfg.decMin)

/-- The acceleration value stored for an accel/brake-axis sample (lines 170-185). -/
def accelerationFromRaw (cfg : Config) (v : Int) : ℚ :=
  zeroSnap (quantize (accelPreQuant cfg v))

/-- Shared state written by the sampler thread and read by the publish loop. -/
structure SharedState where
  acceleration : ℚ
  steering : ℚ
  hasError : Bool
deriving DecidableEq, Repr

def initShared : SharedState := ⟨0, 0, false⟩

/-- Raw axis index of the accel/brake stick: `(!IS_PS4) ? (4 == js.number) : (5 == js.number)`. -/
def accelAxisIndex (cfg : Config) : Nat := if cfg.isPS4 then 5 else 4

/-- Processing of one drained `js_event` (the switch at lines 133-195). -/
def processEvent (cfg : Config) (s : SharedState) (e : JsEvent) : SharedState :=
  if stripInit e.typ = JS_EVENT_AXIS then
    let s1 := if e.number = 0 then { s with steering := steeringFromRaw cfg e.value } else s
    if accelAxisIndex cfg = e.number then
      { s1 with acceleration := accelerationFromRaw cfg e.value }
    else s1
  else s

/-- One drain cycle of the sampler: drain all queued events, then latch the error
flag when the terminating errno is not EAGAIN (lines 131-200). -/
def drainCycle (cfg : Config) (s : SharedState) (events : List JsEvent) (errnoVal : Nat) :
    SharedState :=
  let s2 := events.foldl (processEvent cfg) s
  if errnoVal ≠ EAGAIN then { s2 with hasError := true } else s2

/-- One actuation command as published on the session. -/
structure Cmd where
  acceleration : ℚ
  steering : ℚ
  valid : Bool
deriving DecidableEq, Repr

/-- The command constructed and sent by one publish tick (line 217):
`ar.acceleration(acceleration).steering(steering).isValid(!hasError)`. -/
def tickCommand (s : SharedState) : Cmd := ⟨s.acceleration, s.steering, !s.hasError⟩

/-- The final neutral command (line 232): `ar.acceleration(0).steering(0).isValid(true)`. -/
def stopCmd : Cmd := ⟨0, 0, true⟩

/-- Atomic actions of the concurrent system: one sampler drain cycle (with the
events read and the terminating errno), or one publish tick. -/
inductive Act where
  | sample (events : List JsEvent) (errnoVal : Nat)
  | tick
deriving DecidableEq, Repr

/-- Whole-system state: the mutex-protected shared state, whether the
time-triggered publish loop has stopped, and the commands published so far. -/
structure SysState where
  shared : SharedState
  loopStopped : Bool
  published : List Cmd
deriving DecidableEq, Repr

def initSys : SysState := ⟨initShared, false, []⟩

/-- One interleaved step.  The sampler thread runs `while (!hasError)`, so a
drain cycle is a no-op once the error latch is set; a publish tick publishes
`tickCommand` and keeps running exactly while `!hasError` (lines 216-228), and
the time trigger stops invoking the callback once it returned false. -/
def sysStep (cfg : Config) (st : SysState) : Act → SysState
  | .sample events errnoVal =>
      if st.shared.hasError then st
      else { st with shared := drainCycle cfg st.shared events errnoVal }
  | .tick =>
      if st.loopStopped then st
      else { st with
              published := st.published ++ [tickCommand st.shared],
              loopStopped := st.shared.hasError }

def runSys (cfg : Config) (acts : List Act) : SysState :=
  acts.foldl (sysStep cfg) initSys

/-- A sent message, tagged with whether it is the shutdown-path send (line 233). -/
structure Sent where
  cmd : Cmd
  isShutdown : Bool
deriving DecidableEq, Repr

/-- Everything sent on the session when the publish phase runs: the loop's
commands followed by the single shutdown send (lines 208-233). -/
def processOutput (cfg : Config) (acts : List Act) : List Sent :=
  ((runSys cfg acts).published.map fun c => ⟨c, false⟩) ++ [⟨stopCmd, true⟩]

/-- Control flow of `main`: missing arguments give retCode 1; a failed device
open prints an error and falls through with retCode still 0 and nothing sent;
otherwise the publish phase runs when the OD4 session is running, and retCode
is set to 0 (lines 37-240). -/
def mainModel (argsOk openOk od4Running : Bool) (cfg : Config) (acts : List Act) :
    Int × List Sent :=
  if !argsOk then (1, [])
  else if !openOk then (0, [])
  else if od4Running then (0, processOutput cfg acts)
  else (0, [])

/-- The example configuration of the spec: acc_min=0, acc_max=50, dec_min=0, dec_max=-10. -/
def cfgExample : Config := ⟨false, 0, 50, 0, -10, 0, 0⟩

lemma percentOf_eq (v : Int) : percentOf v = ((v : ℚ) + 32768) / 65535 * 100 := by
  simp only [percentOf, MIN_AXES_VALUE, MAX_AXES_VALUE]
  push_cast
  ring

lemma percentOf_min : percentOf MIN_AXES_VALUE = 0 := by
  norm_num [percentOf_eq, MIN_AXES_VALUE]

lemma percentOf_max : percentOf MAX_AXES_VALUE = 100 := by
  norm_num [percentOf_eq, MAX_AXES_VALUE]

lemma stripInit_axis : stripInit JS_EVENT_AXIS = JS_EVENT_AXIS := by decide

/-- C7: for every raw axis sample v in [-32768, 32767], the computed percent lies
in [0, 100], and percent is monotonically non-decreasing in the raw value. -/
theorem C7_percent_bounds_monotone (v1 v2 : Int)
    (h1 : -32768 ≤ v1) (h2 : v1 ≤ 32767) :
    (0 ≤ percentOf v1 ∧ percentOf v1 ≤ 100) ∧ (v1 ≤ v2 → percentOf v1 ≤ percentOf v2) := by
  have hc1 : (-32768 : ℚ) ≤ (v1 : ℚ) := by exact_mod_cast h1
  have hc2 : (v1 : ℚ) ≤ 32767 := by exact_mod_cast h2
  refine ⟨⟨?_, ?_⟩, ?_⟩
  · rw [percentOf_eq]
    have hnum : (0 : ℚ) ≤ (v1 : ℚ) + 32768 := by linarith
    positivity
  · rw [percentOf_eq]
    have hd : ((v1 : ℚ) + 32768) / 65535 ≤ 1 := by
      rw [div_le_one (by norm_num : (0 : ℚ) < 65535)]
      linarith
    have hd0 : (0 : ℚ) ≤ ((v1 : ℚ) + 32768) / 65535 := by
      apply div_nonneg (by linarith) (by norm_num)
    nlinarith
  · intro hle
    have hcle : (v1 : ℚ) ≤ (v2 : ℚ) := by exact_mod_cast hle
    rw [percentOf_eq, percentOf_eq]
    gcongr

/-- C7 witness at v1 = -3, v2 = 5. -/
theorem C7_witness :
    (0 ≤ percentOf (-3) ∧ percentOf (-3) ≤ 100) ∧ percentOf (-3) ≤ percentOf 5 := by
  have h := C7_percent_bounds_monotone (-3) 5 (by norm_num) (by norm_num)
  exact ⟨h.1, h.2 (by norm_num)⟩

/-- C1: an accel/brake-axis event stores the zero-snapped quantization of the
claimed branch formulas, and with the example ranges (acc 0..50, dec 0..-10) the
pre-quantization acceleration at full pull (v = -32768) is 50 and at full push
(v = 32767) is -10. -/
theorem C1_accel_mapping (cfg : Config) (s : SharedState) (v : Int) :
    (processEvent cfg s ⟨JS_EVENT_AXIS, accelAxisIndex cfg, v⟩).acceleration =
      zeroSnap (quantize
        (if v < 0 then
          (100 - 2 * percentOf v) / 100 * (cfg.accMax - cfg.accMin) + cfg.accMin
        else
          (2 * percentOf v - 100) / 100 * (cfg.decMax - cfg.decMin))) ∧
    accelPreQuant cfgExample (-32768) = 50 ∧
    accelPreQuant cfgExample 32767 = -10 := by
  refine ⟨?_, ?_, ?_⟩
  · cases hp : cfg.isPS4 <;>
      simp [processEvent, stripInit_axis, accelAxisIndex, hp, accelerationFromRaw,
        accelPreQuant]
  · have h : percentOf (-32768) = 0 := percentOf_min
    norm_num [accelPreQuant, cfgExample, h]
  · have h : percentOf 32767 = 100 := percentOf_max
    norm_num [accelPreQuant, cfgExample, h]

/-- C5: a steering-axis event (axis 0) stores the quantized-then-zero-snapped
value of the negated range-mapped percent. -/
theorem C5_steering_stored (cfg : Config) (s : SharedState) (v : Int) :
    (processEvent cfg s ⟨JS_EVENT_AXIS, 0, v⟩).steering =
      zeroSnap (quantize (-(percentOf v / 100 * (cfg.steerMax - cfg.steerMin) + cfg.steerMin))) := by
  have harg : (percentOf v / 100 * (cfg.steerMax - cfg.steerMin) + cfg.steerMin) * (-1) =
      -(percentOf v / 100 * (cfg.steerMax - cfg.steerMin) + cfg.steerMin) := by ring
  cases hp : cfg.isPS4 <;>
    simp [processEvent, stripInit_axis, accelAxisIndex, hp, steeringFromRaw,
      steeringPreQuant, harg]

/-- C6 counterexample: with steering_min = 0 and steering_max = 10, full pull
(v = -32768) gives pre-quantization steering 0, not steering_max = 10. -/
theorem C6_counterexample :
    ¬ (steeringPreQuant ⟨false, 0, 0, 0, 0, 0, 10⟩ MIN_AXES_VALUE = 10) := by
  have h : percentOf MIN_AXES_VALUE = 0 := percentOf_min
  norm_num [steeringPreQuant, h]

/-- C6 amended: full pull (v = -32768) yields pre-quantization steering
-steering_min after sign inversion and full push (v = 32767) yields
-steering_max; when the configured range is symmetric (steering_min =
-steering_max) these equal steering_max and steering_min respectively. -/
theorem C6_full_deflection (cfg : Config) :
    steeringPreQuant cfg MIN_AXES_VALUE = -cfg.steerMin ∧
    steeringPreQuant cfg MAX_AXES_VALUE = -cfg.steerMax ∧
    (cfg.steerMin = -cfg.steerMax →
      steeringPreQuant cfg MIN_AXES_VALUE = cfg.steerMax ∧
      steeringPreQuant cfg MAX_AXES_VALUE = cfg.steerMin) := by
  have hmin : steeringPreQuant cfg MIN_AXES_VALUE = -cfg.steerMin := by
    rw [steeringPreQuant, percentOf_min]
    ring
  have hmax : steeringPreQuant cfg MAX_AXES_VALUE = -cfg.steerMax := by
    rw [steeringPreQuant, percentOf_max]
    ring
  refine ⟨hmin, hmax, fun hsym => ⟨?_, ?_⟩⟩
  · rw [hmin, hsym]
    ring
  · rw [hmax, hsym]

/-- C6 witness: with the symmetric range steering_min = -10, steering_max = 10,
full pull yields 10 = steering_max and full push yields -10 = steering_min. -/
theorem C6_witness :
    steeringPreQuant ⟨false, 0, 0, 0, 0, -10, 10⟩ MIN_AXES_VALUE = 10 ∧
    steeringPreQuant ⟨false, 0, 0, 0, 0, -10, 10⟩ MAX_AXES_VALUE = -10 :=
  (C6_full_deflection ⟨false, 0, 0, 0, 0, -10, 10⟩).2.2 (by norm_num)

/-- C10: every nonzero output of the 0.25 quantization has magnitude at least
1/4, so the zero-snap after quantization is the identity in exact arithmetic
(the snap only normalizes a signed zero). -/
theorem C10_quantize_snap (x : ℚ) :
    (quantize x ≠ 0 → 1/4 ≤ |quantize x|) ∧ zeroSnap (quantize x) = quantize x := by
  by_cases hn : roundAway (4 * x) = 0
  · constructor
    · intro hq
      exfalso
      apply hq
      simp [quantize, hn]
    · simp [quantize, hn, zeroSnap]
  · have h1 : (1 : ℚ) ≤ |((roundAway (4 * x) : Int) : ℚ)| := by
      rw [← Int.cast_abs]
      exact_mod_cast Int.one_le_abs hn
    have habs : 1/4 ≤ |quantize x| := by
      rw [quantize, abs_div]
      rw [show |(4 : ℚ)| = 4 by norm_num]
      linarith
    refine ⟨fun _ => habs, ?_⟩
    rw [zeroSnap, if_neg]
    rintro ⟨hlt, hgt⟩
    rcases le_abs.mp habs with h | h
    · linarith
    · linarith

/-- C10 witness at x = 1: quantize 1 = 1, magnitude at least 1/4, snap is identity. -/
theorem C10_witness : (1/4 : ℚ) ≤ |quantize 1| ∧ zeroSnap (quantize 1) = quantize 1 := by
  have h1 : quantize 1 = 1 := by
    norm_num [quantize, roundAway, Int.floor_eq_iff]
  have h : quantize 1 ≠ 0 := by
    rw [h1]
    norm_num
  exact ⟨(C10_quantize_snap 1).1 h, (C10_quantize_snap 1).2⟩

lemma stripInit_button : stripInit JS_EVENT_BUTTON = JS_EVENT_BUTTON := by decide

lemma stripInit_init : stripInit JS_EVENT_INIT = 0 := by decide

lemma accelAxisIndex_ne_zero (cfg : Config) : accelAxisIndex cfg ≠ 0 := by
  cases hp : cfg.isPS4 <;> simp [accelAxisIndex, hp]

/-- C9: BUTTON and INIT events and untracked AXIS events leave the whole state
unchanged; a steering-axis event leaves acceleration and the error flag
unchanged, and an accel-axis event leaves steering and the error flag unchanged. -/
theorem C9_frame_effect (cfg : Config) (s : SharedState) (e : JsEvent) :
    ((e.typ = JS_EVENT_BUTTON ∨ e.typ = JS_EVENT_INIT ∨
      (e.typ = JS_EVENT_AXIS ∧ e.number ≠ 0 ∧ e.number ≠ accelAxisIndex cfg)) →
      processEvent cfg s e = s) ∧
    (e.typ = JS_EVENT_AXIS → e.number = 0 →
      (processEvent cfg s e).acceleration = s.acceleration ∧
      (processEvent cfg s e).hasError = s.hasError) ∧
    (e.typ = JS_EVENT_AXIS → e.number = accelAxisIndex cfg →
      (processEvent cfg s e).steering = s.steering ∧
      (processEvent cfg s e).hasError = s.hasError) := by
  refine ⟨?_, ?_, ?_⟩
  · rintro (ht | ht | ⟨ht, hn0, hna⟩)
    · have h : stripInit e.typ ≠ JS_EVENT_AXIS := by
        rw [ht, stripInit_button]
        decide
      simp [processEvent, h]
    · have h : stripInit e.typ ≠ JS_EVENT_AXIS := by
        rw [ht, stripInit_init]
        decide
      simp [processEvent, h]
    · have hna2 : ¬ (accelAxisIndex cfg = e.number) := fun h => hna h.symm
      simp only [processEvent, if_neg hn0, if_neg hna2, ite_self]
  · intro ht hn
    have ha : ¬ (accelAxisIndex cfg = 0) := accelAxisIndex_ne_zero cfg
    constructor <;> simp [processEvent, ht, stripInit_axis, hn, ha]
  · intro ht hn
    have hz : ¬ (e.number = 0) := by
      rw [hn]
      exact accelAxisIndex_ne_zero cfg
    have ha : accelAxisIndex cfg = e.number := hn.symm
    constructor <;> simp [processEvent, ht, stripInit_axis, hz, ha]

/-- C9 witness: a BUTTON event is a no-op, a steering event keeps acceleration,
an accel event keeps steering, on the concrete state (1, 2, no error). -/
theorem C9_witness :
    processEvent cfgExample ⟨1, 2, false⟩ ⟨JS_EVENT_BUTTON, 3, 77⟩ = ⟨1, 2, false⟩ ∧
    (processEvent cfgExample ⟨1, 2, false⟩ ⟨JS_EVENT_AXIS, 0, -5000⟩).acceleration = 1 ∧
    (processEvent cfgExample ⟨1, 2, false⟩ ⟨JS_EVENT_AXIS, 4, -5000⟩).steering = 2 :=
  ⟨(C9_frame_effect cfgExample ⟨1, 2, false⟩ ⟨JS_EVENT_BUTTON, 3, 77⟩).1 (Or.inl rfl),
   ((C9_frame_effect cfgExample ⟨1, 2, false⟩ ⟨JS_EVENT_AXIS, 0, -5000⟩).2.1 rfl rfl).1,
   ((C9_frame_effect cfgExample ⟨1, 2, false⟩ ⟨JS_EVENT_AXIS, 4, -5000⟩).2.2 rfl rfl).1⟩

lemma processEvent_hasError (cfg : Config) (s : SharedState) (e : JsEvent) :
    (processEvent cfg s e).hasError = s.hasError := by
  simp only [processEvent]
  split_ifs <;> rfl

lemma foldl_processEvent_hasError (cfg : Config) (events : List JsEvent) (s : SharedState) :
    (events.foldl (processEvent cfg) s).hasError = s.hasError := by
  induction events generalizing s with
  | nil => rfl
  | cons e es ih => rw [List.foldl_cons, ih, processEvent_hasError]

lemma drainCycle_hasError (cfg : Config) (s : SharedState) (events : List JsEvent)
    (errnoVal : Nat) :
    (drainCycle cfg s events errnoVal).hasError =
      (s.hasError || decide (errnoVal ≠ EAGAIN)) := by
  simp only [drainCycle]
  split_ifs with h <;> simp [foldl_processEvent_hasError, h]

lemma sysStep_hasError_mono (cfg : Config) (st : SysState) (a : Act)
    (h : st.shared.hasError = true) : (sysStep cfg st a).shared.hasError = true := by
  cases a with
  | sample events errnoVal => simp [sysStep, h]
  | tick =>
      simp only [sysStep]
      split_ifs <;> simpa using h

lemma foldl_sysStep_hasError_mono (cfg : Config) (more : List Act) (st : SysState)
    (h : st.shared.hasError = true) :
    (more.foldl (sysStep cfg) st).shared.hasError = true := by
  induction more generalizing st with
  | nil => exact h
  | cons a l ih => exact ih _ (sysStep_hasError_mono cfg st a h)

/-- Reachability invariant of the interleaved system: with no error latched all
published commands are valid, a stopped loop implies a latched error, and a
published invalid command is followed only by invalid commands. -/
def SysInv (st : SysState) : Prop :=
  (st.shared.hasError = false → ∀ c ∈ st.published, c.valid = true) ∧
  (st.loopStopped = true → st.shared.hasError = true) ∧
  st.published.Pairwise (fun c d => c.valid = false → d.valid = false)

lemma sysInv_init : SysInv initSys := by
  refine ⟨?_, ?_, ?_⟩ <;> simp [initSys, initShared]

lemma sysInv_step (cfg : Config) (st : SysState) (a : Act) (h : SysInv st) :
    SysInv (sysStep cfg st a) := by
  obtain ⟨h1, h2, h3⟩ := h
  cases a with
  | sample events errnoVal =>
      cases he : st.shared.hasError with
      | true => simpa [sysStep, he] using ⟨h1, h2, h3⟩
      | false =>
          simp only [sysStep, he, Bool.false_eq_true, if_false]
          refine ⟨fun _ => h1 he, fun hls => absurd (h2 hls) (by simp [he]), h3⟩
  | tick =>
      cases hls : st.loopStopped with
      | true => simpa [sysStep, hls] using ⟨h1, h2, h3⟩
      | false =>
          simp only [sysStep, hls, Bool.false_eq_true, if_false]
          refine ⟨?_, ?_, ?_⟩
          · intro hfe c hc
            have hfe2 : st.shared.hasError = false := hfe
            have hc2 : c ∈ st.published ++ [tickCommand st.shared] := hc
            rcases List.mem_append.mp hc2 with hc3 | hc3
            · exact h1 hfe2 c hc3
            · rcases List.mem_singleton.mp hc3 with rfl
              simp [tickCommand, hfe2]
          · intro hst
            exact hst
          · rw [List.pairwise_append]
            refine ⟨h3, List.pairwise_singleton _ _, ?_⟩
            intro c hc d hd
            rcases List.mem_singleton.mp hd with rfl
            cases hhe : st.shared.hasError with
            | true => intro _; simp [tickCommand, hhe]
            | false =>
                intro hcv
                rw [h1 hhe c hc] at hcv
                exact absurd hcv (by simp)

lemma sysInv_run (cfg : Config) (acts : List Act) : SysInv (runSys cfg acts) := by
  have key : ∀ (l : List Act) (st : SysState), SysInv st → SysInv (l.foldl (sysStep cfg) st) := by
    intro l
    induction l with
    | nil => exact fun st h => h
    | cons a l ih => exact fun st h => ih _ (sysInv_step cfg st a h)
  exact key acts initSys sysInv_init

lemma runSys_append (cfg : Config) (acts more : List Act) :
    runSys cfg (acts ++ more) = more.foldl (sysStep cfg) (runSys cfg acts) := by
  simp [runSys, List.foldl_append]

/-- C2: a running tick publishes exactly the shared values with valid equal to
the negated error latch; the error latch is never cleared along any extension
of the run; with no error latched every published command is valid; an invalid
published command implies a latched error; commands after an invalid one stay
invalid; and the shutdown send carries valid = true. -/
theorem C2_valid_error_invariant (cfg : Config) (acts more : List Act) :
    ((runSys cfg acts).loopStopped = false →
      (sysStep cfg (runSys cfg acts) Act.tick).published =
        (runSys cfg acts).published ++
          [⟨(runSys cfg acts).shared.acceleration, (runSys cfg acts).shared.steering,
            !(runSys cfg acts).shared.hasError⟩]) ∧
    ((runSys cfg acts).shared.hasError = true →
      (runSys cfg (acts ++ more)).shared.hasError = true) ∧
    ((runSys cfg acts).shared.hasError = false →
      ∀ c ∈ (runSys cfg acts).published, c.valid = true) ∧
    (∀ c ∈ (runSys cfg acts).published, c.valid = false →
      (runSys cfg acts).shared.hasError = true) ∧
    (runSys cfg acts).published.Pairwise (fun c d => c.valid = false → d.valid = false) ∧
    (processOutput cfg acts).getLast? = some ⟨stopCmd, true⟩ ∧
    stopCmd.valid = true := by
  obtain ⟨h1, h2, h3⟩ := sysInv_run cfg acts
  refine ⟨?_, ?_, h1, ?_, h3, ?_, rfl⟩
  · intro hls
    simp [sysStep, hls, tickCommand]
  · intro he
    rw [runSys_append]
    exact foldl_sysStep_hasError_mono cfg more _ he
  · intro c hc hcv
    cases he : (runSys cfg acts).shared.hasError with
    | true => rfl
    | false =>
        rw [h1 he c hc] at hcv
        exact absurd hcv (by simp)
  · rw [processOutput, List.getLast?_concat]

/-- C2 witness: after a drain cycle ending with errno 5 the error latch is set,
and it stays set after a further tick. -/
theorem C2_witness :
    (runSys cfgExample ([Act.sample [] 5] ++ [Act.tick])).shared.hasError = true := by
  have h : (runSys cfgExample [Act.sample [] 5]).shared.hasError = true := by
    simp [runSys, sysStep, drainCycle, initSys, initShared, EAGAIN]
  exact (C2_valid_error_invariant cfgExample [Act.sample [] 5] [Act.tick]).2.1 h

/-- C3 counterexample: in the execution where the OD4 session is not running the
process terminates normally without sending any command at all, in particular
no final neutral command is sent. -/
theorem C3_counterexample :
    (mainModel true true false cfgExample []).2 = [] ∧
    ¬ ((mainModel true true false cfgExample []).2.countP (fun x => x.isShutdown) = 1) := by
  constructor <;> simp [mainModel]

/-- C3 amended: in every execution that enters the publish phase (arguments
present, device opened, session running), exactly one shutdown send occurs, it
is the last command sent, it is the neutral command (0, 0, valid = true), and
this holds whether or not the loop stopped due to an error. -/
theorem C3_shutdown_unique_last (cfg : Config) (acts : List Act) :
    ((mainModel true true true cfg acts).2.countP (fun x => x.isShutdown) = 1) ∧
    (mainModel true true true cfg acts).2.getLast? = some ⟨stopCmd, true⟩ ∧
    stopCmd = ⟨0, 0, true⟩ ∧
    (∀ x ∈ (mainModel true true true cfg acts).2, x.isShutdown = true → x.cmd = stopCmd) := by
  have hout : (mainModel true true true cfg acts).2 =
      ((runSys cfg acts).published.map fun c => ⟨c, false⟩) ++ [⟨stopCmd, true⟩] := by
    simp [mainModel, processOutput]
  refine ⟨?_, ?_, rfl, ?_⟩
  · rw [hout, List.countP_append, List.countP_map]
    simp [Function.comp]
  · rw [hout, List.getLast?_concat]
  · intro x hx hxs
    rw [hout] at hx
    rcases List.mem_append.mp hx with hx | hx
    · rcases List.mem_map.mp hx with ⟨c, _, rfl⟩
      exact absurd hxs (by simp)
    · rcases List.mem_singleton.mp hx with rfl
      rfl

/-- C3 witness: with one tick, the publish phase sends exactly one shutdown
command, and the shutdown element of the output carries the neutral command. -/
theorem C3_witness :
    (mainModel true true true cfgExample [Act.tick]).2.countP (fun x => x.isShutdown) = 1 ∧
    (⟨stopCmd, true⟩ : Sent).cmd = stopCmd := by
  refine ⟨(C3_shutdown_unique_last cfgExample [Act.tick]).1, ?_⟩
  refine (C3_shutdown_unique_last cfgExample [Act.tick]).2.2.2 ⟨stopCmd, true⟩ ?_ rfl
  simp [mainModel, processOutput]

/-- C4: while not stopped and with no error latched a tick publishes a valid
command and the loop continues; while not stopped with the error latched the
tick still publishes the (possibly stale) shared values with valid = false and
the loop stops; once stopped, no action publishes anything and the loop stays
stopped. -/
theorem C4_publish_loop_stop (cfg : Config) (acts : List Act) :
    ((runSys cfg acts).loopStopped = false → (runSys cfg acts).shared.hasError = false →
      (sysStep cfg (runSys cfg acts) Act.tick).loopStopped = false ∧
      (sysStep cfg (runSys cfg acts) Act.tick).published =
        (runSys cfg acts).published ++ [tickCommand (runSys cfg acts).shared] ∧
      (tickCommand (runSys cfg acts).shared).valid = true) ∧
    ((runSys cfg acts).loopStopped = false → (runSys cfg acts).shared.hasError = true →
      (sysStep cfg (runSys cfg acts) Act.tick).loopStopped = true ∧
      (sysStep cfg (runSys cfg acts) Act.tick).published =
        (runSys cfg acts).published ++
          [⟨(runSys cfg acts).shared.acceleration, (runSys cfg acts).shared.steering, false⟩]) ∧
    ((runSys cfg acts).loopStopped = true → ∀ a : Act,
      (sysStep cfg (runSys cfg acts) a).published = (runSys cfg acts).published ∧
      (sysStep cfg (runSys cfg acts) a).loopStopped = true) := by
  refine ⟨?_, ?_, ?_⟩
  · intro hls he
    refine ⟨?_, ?_, ?_⟩ <;> simp [sysStep, hls, he, tickCommand]
  · intro hls he
    constructor <;> simp [sysStep, hls, he, tickCommand]
  · intro hls a
    cases a with
    | sample events errnoVal =>
        constructor <;> · simp only [sysStep]; split_ifs <;> simp [hls]
    | tick => simp [sysStep, hls]

/-- C4 witness: after a drain cycle latching the error, the loop is not yet
stopped; the next tick stops it. -/
theorem C4_witness :
    (sysStep cfgExample (runSys cfgExample [Act.sample [] 5]) Act.tick).loopStopped = true := by
  have hls : (runSys cfgExample [Act.sample [] 5]).loopStopped = false := by
    simp [runSys, sysStep, drainCycle, initSys, initShared, EAGAIN]
  have he : (runSys cfgExample [Act.sample [] 5]).shared.hasError = true := by
    simp [runSys, sysStep, drainCycle, initSys, initShared, EAGAIN]
  exact ((C4_publish_loop_stop cfgExample [Act.sample [] 5]).2.1 hls he).1

/-- C8: when the device open fails, the process sends no command at all (no
sampling, no publishing) but terminates with exit code 0, not with a non-zero
status as the specification claims. -/
theorem C8_open_failure (od4Running : Bool) (cfg : Config) (acts : List Act) :
    mainModel true false od4Running cfg acts = (0, []) := by
  simp [mainModel]
